import Mathlib

/-!
Verification of the Jira CSV analytics data-preparation and metrics pipeline.

The definitions below are a shallow embedding of the Python source:
`src/data/processors.py`, `src/data/data_loader.py`,
`src/ui/dashboard/metrics.py`, `src/ui/dashboard/view.py`,
`src/ui/dashboard/sprint_selector.py`, `src/components/visualizations.py`.

Modelling conventions:
  * a pandas cell is a `Cell` (missing value `na`, a number, a string, or a
    parsed datetime represented as an integer ordinal);
  * a DataFrame with the canonical columns is a `List Row` over a fixed
    schema; a column that is absent from a concrete CSV is modelled as a
    column of `na` cells (its cleaning steps behave identically);
  * Python floats are modelled as rationals `ℚ`;
  * string operations are ASCII-faithful (the status table, sprint labels
    and keywords in the code are all ASCII).
-/

/-- Python whitespace characters (the ASCII range of `str.strip` and of the
regex class `\s`; Unicode spaces do not occur in the data). -/
def pyIsSpace (c : Char) : Bool :=
  c = ' ' || c = '\t' || c = '\n' || c = '\r' || c = '\x0b' || c = '\x0c'

/-- `str.strip` on a character list: drop whitespace from both ends. -/
def pyStripL (cs : List Char) : List Char :=
  ((cs.dropWhile pyIsSpace).reverse.dropWhile pyIsSpace).reverse

/-- Python `str.strip`. -/
def pyStrip (s : String) : String := ⟨pyStripL s.data⟩

/-- ASCII lowercase of a single character. -/
def pyLowerChar (c : Char) : Char :=
  if 'A' ≤ c && c ≤ 'Z' then Char.ofNat (c.toNat + 32) else c

/-- Python `str.lower` (ASCII letters; every keyword compared in the code is ASCII). -/
def pyLower (s : String) : String := ⟨s.data.map pyLowerChar⟩

/-- The literal status → category table of `process_jira_data`
(`src/data/processors.py`, `status_map`). -/
def statusPairs : List (String × String) :=
  [ ("Closed", "Done")
  , ("Done", "Done")
  , ("Story Done", "Done")
  , ("Epic Done", "Done")
  , ("Resolved", "Done")
  , ("Complete", "Done")
  , ("Completed", "Done")
  , ("In Progress", "In Progress")
  , ("Story in Progress", "In Progress")
  , ("In Development", "In Progress")
  , ("Development", "In Progress")
  , ("To Do", "To Do")
  , ("Backlog", "To Do")
  , ("Open", "To Do")
  , ("New", "To Do") ]

/-- `df["Status"].str.strip().map(status_map).fillna("Other")` applied to a
single status string: strip whitespace, then an exact (case-sensitive)
lookup in the fixed table, defaulting to `"Other"`. -/
def statusCategoryOf (s : String) : String :=
  (statusPairs.lookup (pyStrip s)).getD "Other"

/-- The seven completion keywords of `is_completed_status`
(identical in `processors.py`, `metrics.py` and `view.py`). -/
def completedKeywords : List String :=
  ["done", "closed", "story done", "epic done", "resolved", "complete", "completed"]

/-- `is_completed_status(status)`: membership of `str(status).lower()` in the
keyword list.  Note: the status is lowercased but not stripped. -/
def is_completed_status (s : String) : Bool :=
  completedKeywords.contains (pyLower s)

/-- The four completion keywords of the variant `is_completed_status` defined
in `src/components/visualizations.py` (a strict subset of the seven). -/
def completedKeywordsViz : List String :=
  ["done", "closed", "story done", "epic done"]

/-- `is_completed_status` as defined in `src/components/visualizations.py`. -/
def is_completed_status_viz (s : String) : Bool :=
  completedKeywordsViz.contains (pyLower s)

/-- The character list of the literal "Sprint". -/
def sprintLit : List Char := ['S', 'p', 'r', 'i', 'n', 't']

/-- Numeric value of a run of decimal digits (`int` of the captured group). -/
def digitsVal (ds : List Char) : Nat :=
  ds.foldl (fun a c => a * 10 + (c.toNat - 48)) 0

/-- Try to match the regex `Sprint\s*(\d+)` at the start of `cs`: the literal
"Sprint", then any run of whitespace, then at least one digit.  (Whitespace
characters are never digits, so the greedy `\s*` needs no backtracking.) -/
def matchSprintAt (cs : List Char) : Option Nat :=
  if sprintLit.isPrefixOf cs then
    let ds := ((cs.drop 6).dropWhile pyIsSpace).takeWhile Char.isDigit
    if ds.isEmpty then none else some (digitsVal ds)
  else none

/-- `re.search(r"Sprint\s*(\d+)", s)`: scan left to right and return the
group value of the first position where the pattern matches. -/
def scanSprint : List Char → Option Nat
  | [] => none
  | c :: cs =>
    match matchSprintAt (c :: cs) with
    | some n => some n
    | none => scanSprint cs

/-- `extract_sprint_number` (`src/data/processors.py`): `-1` for an
all-whitespace or `"No Sprint"` input, otherwise the first regex match, `-1`
when there is none.  (`pd.isna` is false for every string; `int` of a digit
run never fails.) -/
def extract_sprint_number (s : String) : Int :=
  if s.data.all pyIsSpace then -1
  else if s = "No Sprint" then -1
  else
    match scanSprint s.data with
    | some n => (n : Int)
    | none => -1

theorem findSome?_cons_expand {α β : Type} (f : α → Option β) (a : α) (l : List α) :
    (a :: l).findSome? f = match f a with | some b => some b | none => l.findSome? f := rfl

theorem scanSprint_eq_findSome? (cs : List Char) :
    scanSprint cs = (List.range cs.length).findSome? (fun i => matchSprintAt (cs.drop i)) := by
  induction cs with
  | nil => rfl
  | cons c cs ih =>
      rw [scanSprint, List.length_cons, List.range_succ_eq_map,
        findSome?_cons_expand, List.findSome?_map]
      simp only [List.drop_zero, Function.comp]
      cases h : matchSprintAt (c :: cs) with
      | some n => rfl
      | none =>
          simp only [ih]
          rfl

theorem matchSprintAt_ws_head {c : Char} {cs : List Char} (h : pyIsSpace c = true) :
    matchSprintAt (c :: cs) = none := by
  have hc : ('S' == c) = false := by
    cases hq : ('S' == c) with
    | false => rfl
    | true =>
        have : c = 'S' := (beq_iff_eq.mp hq).symm
        subst this
        simp [pyIsSpace] at h
  rw [matchSprintAt]
  simp [sprintLit, List.isPrefixOf, hc]

theorem scanSprint_of_all_ws {cs : List Char} (h : ∀ c ∈ cs, pyIsSpace c = true) :
    scanSprint cs = none := by
  induction cs with
  | nil => rfl
  | cons c cs ih =>
      rw [scanSprint, matchSprintAt_ws_head (h c (List.mem_cons_self c cs))]
      exact ih fun x hx => h x (List.mem_cons_of_mem c hx)

/-- C5: for every string, `extract_sprint_number` returns the value captured
at the leftmost position where the pattern `Sprint\s*(\d+)` matches (the
special-cased all-whitespace and "No Sprint" inputs have no match, so the
characterization is unconditional), it returns `-1` when no position
matches, and the three documented examples hold. -/
theorem extract_sprint_number_spec :
    (∀ s : String,
      extract_sprint_number s =
        (((List.range s.data.length).findSome?
            (fun i => matchSprintAt (s.data.drop i))).elim (-1) (fun n => (n : Int)))) ∧
    extract_sprint_number "BP: EFDDH Sprint 21" = 21 ∧
    extract_sprint_number "No Sprint" = -1 ∧
    extract_sprint_number "" = -1 := by
  refine ⟨fun s => ?_, by decide, by decide, by decide⟩
  rw [extract_sprint_number, ← scanSprint_eq_findSome?]
  split_ifs with h1 h2
  · rw [scanSprint_of_all_ws (List.all_eq_true.mp h1)]
    rfl
  · subst h2
    decide
  · cases scanSprint s.data <;> rfl

/-- A pandas cell: missing (`NaN`/`NaT`), a number, a string, or a parsed
datetime (represented by an integer ordinal). -/
inductive Cell where
  | na : Cell
  | num : ℚ → Cell
  | str : String → Cell
  | date : ℤ → Cell
deriving DecidableEq, Repr, Inhabited

/-- Python `str(value)` of a cell.  `str` of a missing value is `"nan"`; the
textual rendering of numeric and datetime cells never reaches a string
comparison on any path a claim exercises, so only its injectivity matters. -/
def cellStr : Cell → String
  | Cell.na => "nan"
  | Cell.num q => "num:" ++ toString q.num ++ ":" ++ toString q.den
  | Cell.str s => s
  | Cell.date d => "date:" ++ toString d

/-- `pd.to_numeric(errors="coerce")` string parsing, restricted to the
decimal forms `[ws][+-]digits[.digits][ws]` that occur in the data; anything
else coerces to missing. -/
def parseDecimal (s : String) : Option ℚ :=
  let cs := pyStripL s.data
  let signed : ℚ × List Char :=
    match cs with
    | '-' :: rest => (-1, rest)
    | '+' :: rest => (1, rest)
    | rest => (1, rest)
  let ip := signed.2.takeWhile Char.isDigit
  let rest := signed.2.drop ip.length
  match rest with
  | [] => if ip.isEmpty then none else some (signed.1 * digitsVal ip)
  | '.' :: fp =>
      if fp.all Char.isDigit && !(ip.isEmpty && fp.isEmpty) then
        some (signed.1 * ((digitsVal ip : ℚ) + (digitsVal fp : ℚ) / (10 ^ fp.length)))
      else none
  | _ => none

/-- `pd.to_numeric(col, errors="coerce")` on one cell.  (Datetime cells never
reach the numeric coercion in the modelled pipeline.) -/
def toNumeric : Cell → Cell
  | Cell.num q => Cell.num q
  | Cell.str s =>
      match parseDecimal s with
      | some q => Cell.num q
      | none => Cell.na
  | Cell.na => Cell.na
  | Cell.date _ => Cell.na

/-- `.fillna(v)` on one cell. -/
def fillnaCell (c v : Cell) : Cell :=
  match c with
  | Cell.na => v
  | c => c

/-- `pd.to_numeric(col, errors="coerce").fillna(0)` on one cell. -/
def toNumericFill0 (c : Cell) : Cell := fillnaCell (toNumeric c) (Cell.num 0)

/-- Ordinal encoding of a calendar date: injective and monotone in
(year, month, day).  Day-difference arithmetic on the ordinals is not
calendar-accurate; no claim depends on it. -/
def dateOrdinal (y m d : Nat) : Int := (y : Int) * 512 + (m : Int) * 32 + (d : Int)

/-- `pd.to_datetime(errors="coerce")` string parsing, restricted to the ISO
`YYYY-MM-DD` form the data uses; anything else coerces to `NaT`. -/
def parseDate (s : String) : Option Int :=
  match (pyStripL s.data).splitOn '-' with
  | [ys, ms, ds] =>
      if ys.length == 4 && ys.all Char.isDigit
          && !ms.isEmpty && decide (ms.length ≤ 2) && ms.all Char.isDigit
          && !ds.isEmpty && decide (ds.length ≤ 2) && ds.all Char.isDigit
          && decide (1 ≤ digitsVal ms) && decide (digitsVal ms ≤ 12)
          && decide (1 ≤ digitsVal ds) && decide (digitsVal ds ≤ 31) then
        some (dateOrdinal (digitsVal ys) (digitsVal ms) (digitsVal ds))
      else none
  | _ => none

/-- `pd.to_datetime(col, errors="coerce")` on one cell: parsed datetimes pass
through, strings are parsed best-effort, missing stays missing; a numeric
cell coerces to a timestamp-derived datetime (its ordinal plays no role in
any claim). -/
def toDatetime : Cell → Cell
  | Cell.date d => Cell.date d
  | Cell.na => Cell.na
  | Cell.num q => Cell.date ⌊q⌋
  | Cell.str s =>
      match parseDate s with
      | some d => Cell.date d
      | none => Cell.na

/-- One row of the canonical table: the raw/cleaned columns as cells plus the
derived columns `Status Category`, `Completed`, `Sprint Number` and
`Resolution Time (Days)` (meaningless defaults before processing; always
overwritten by `process_jira_data`).  The `Assignee` column is not touched by
any claimed operation and is omitted. -/
@[ext]
structure Row where
  issue_key : Cell := Cell.na
  created : Cell := Cell.na
  resolved : Cell := Cell.na
  updated : Cell := Cell.na
  due_date : Cell := Cell.na
  status : Cell := Cell.na
  priority : Cell := Cell.na
  issue_type : Cell := Cell.na
  story_points : Cell := Cell.na
  sprint : Cell := Cell.na
  epic : Cell := Cell.na
  statusCategory : String := ""
  completed : Bool := false
  sprintNumber : Int := 0
  resolutionDays : Option Int := none
deriving DecidableEq, Repr, Inhabited

/-- `Status.str.strip().map(status_map).fillna("Other")` on one cell: the
`.str` accessor yields missing (hence `"Other"`) on non-string cells. -/
def statusCategoryCell : Cell → String
  | Cell.str s => statusCategoryOf s
  | _ => "Other"

/-- `Status.apply(is_completed_status)` on one cell (`str(status).lower()`). -/
def completedCell (c : Cell) : Bool := is_completed_status (cellStr c)

/-- The `Sprint` cleaning inside `process_jira_data`: `fillna("No Sprint")`,
`astype(str)`, then the text before the first comma, stripped
(`x.split(",")[0].strip() if "," in x else x.strip()`). -/
def processSprintStr (c : Cell) : String :=
  if (cellStr (fillnaCell c (Cell.str "No Sprint"))).data.contains ',' then
    ⟨pyStripL ((cellStr (fillnaCell c (Cell.str "No Sprint"))).data.takeWhile
        (fun x => x ≠ ','))⟩
  else pyStrip (cellStr (fillnaCell c (Cell.str "No Sprint")))

/-- `(Resolved - Created).dt.days` on one row: defined when both dates are
present, missing otherwise. -/
def resolutionDaysOf (resolved created : Cell) : Option Int :=
  match resolved, created with
  | Cell.date a, Cell.date b => some (a - b)
  | _, _ => none

/-- One row of `process_jira_data` (`src/data/processors.py`): date
conversion, resolution time, status category and completed flag, numeric
story points, sprint cleaning and sprint number. -/
def process_jira_row (r : Row) : Row :=
  { r with
    created := toDatetime r.created, resolved := toDatetime r.resolved,
    updated := toDatetime r.updated, due_date := toDatetime r.due_date,
    resolutionDays := resolutionDaysOf (toDatetime r.resolved) (toDatetime r.created),
    statusCategory := statusCategoryCell r.status,
    completed := completedCell r.status,
    story_points := toNumericFill0 r.story_points,
    sprint := Cell.str (processSprintStr r.sprint),
    sprintNumber := extract_sprint_number (processSprintStr r.sprint) }

/-- `process_jira_data`: row-wise processing (the empty-frame early return
coincides with mapping over the empty list). -/
def process_jira_data (t : List Row) : List Row := t.map process_jira_row

/-- The date-conversion pass at the top of `prepare_data`. -/
def dateCols (r : Row) : Row :=
  { r with
    created := toDatetime r.created,
    updated := toDatetime r.updated,
    resolved := toDatetime r.resolved,
    due_date := toDatetime r.due_date }

/-- The `dropna(subset=["Issue key", "Created"])` row predicate of
`prepare_data` (applied after date conversion). -/
def requiredPresent (r : Row) : Bool :=
  !(r.issue_key == Cell.na) && !(r.created == Cell.na)

/-- The sprint-selection step of `prepare_data`: `fillna("")`, then the first
value whose `str(...)` strips to non-empty, else `"No Sprint"`.  With the
single modelled sprint column the selected value is kept unchanged. -/
def prepSprint (c : Cell) : Cell :=
  match c with
  | Cell.na => Cell.str "No Sprint"
  | c => if pyStrip (cellStr c) = "" then Cell.str "No Sprint" else c

/-- The per-row cleaning of `prepare_data` between the dropna and the final
`process_jira_data` call: numeric story points, status/priority/issue-type
defaults, sprint selection, epic default. -/
def prepare_clean (r : Row) : Row :=
  { r with
    story_points := toNumericFill0 r.story_points,
    status := fillnaCell r.status (Cell.str "In Progress"),
    priority := Cell.str (cellStr (fillnaCell r.priority (Cell.str "Medium"))),
    issue_type := Cell.str (cellStr (fillnaCell r.issue_type (Cell.str "Story"))),
    sprint := prepSprint r.sprint,
    epic := fillnaCell r.epic (Cell.str "No Epic") }

/-- `prepare_data` (`src/data/data_loader.py`): empty-frame early return,
date conversion, drop rows missing `Issue key`/`Created`, column cleaning,
then `process_jira_data`. -/
def prepare_data (t : List Row) : List Row :=
  if t = [] then []
  else process_jira_data (((t.map dateCols).filter requiredPresent).map prepare_clean)

/-- A CSV as produced by `pd.read_csv`: the header names plus the rows over
the fixed schema (a column absent from `cols` is `na` in every row). -/
structure Csv where
  cols : List String
  rows : List Row
deriving DecidableEq, Repr

/-- Result of `load_data`: the returned frame plus the `st.error` message if
one was shown.  Every failure path returns an empty frame; the function is
total, so no exception escapes. -/
structure LoadResult where
  rows : List Row
  error : Option String
deriving DecidableEq, Repr

def required_columns : List String := ["Issue key", "Created", "Status"]

/-- `load_data` (`src/data/data_loader.py`); `none` models a nonexistent
path. -/
def load_data : Option Csv → LoadResult
  | none => LoadResult.mk [] (some "Data file not found")
  | some csv =>
      let missing := required_columns.filter (fun c => !(csv.cols.contains c))
      if missing ≠ [] then LoadResult.mk [] (some "Missing required columns")
      else if csv.rows = [] then LoadResult.mk [] (some "No data found in file")
      else LoadResult.mk csv.rows none

/-- The composite load-then-prepare pipeline. -/
def loadPrepare (input : Option Csv) : List Row := prepare_data (load_data input).rows

/-- C1, counterexample: the status-category mapping is case-sensitive, so the
all-caps status "STORY DONE" is mapped to category "Other", while the
(case-insensitive) completed flag is true for it — refuting both the claimed
case-insensitive table match and the claimed `is_completed ↔ category = Done`
equivalence. -/
theorem c1_counterexample :
    statusCategoryOf "STORY DONE" = "Other" ∧
    is_completed_status "STORY DONE" = true ∧
    ("Other" : String) ≠ "Done" := by decide

/-- C1 (amended): for every literal entry of the fixed status table, the
category mapping returns the table's category, and the completed flag agrees
with "category = Done" on exactly these literal keys.  Case variants fall to
"Other" (see the counterexample), and the completed flag lowercases but does
not trim its argument. -/
theorem c1_statusTable_exact :
    ∀ p ∈ statusPairs,
      statusCategoryOf p.1 = p.2 ∧
      is_completed_status p.1 = decide (p.2 = "Done") := by decide

/-- Witness for C1: the table entry ("Story Done", "Done"). -/
theorem c1_statusTable_exact_witness :
    ("Story Done", "Done") ∈ statusPairs ∧
      (statusCategoryOf ("Story Done", "Done").1 = ("Story Done", "Done").2 ∧
       is_completed_status ("Story Done", "Done").1 =
         decide ((("Story Done", "Done").2 : String) = "Done")) :=
  ⟨by decide, c1_statusTable_exact ("Story Done", "Done") (by decide)⟩

theorem toDatetime_shape (c : Cell) :
    toDatetime c = Cell.na ∨ ∃ d, toDatetime c = Cell.date d := by
  cases c with
  | na => exact Or.inl rfl
  | num q => exact Or.inr ⟨⌊q⌋, rfl⟩
  | date d => exact Or.inr ⟨d, rfl⟩
  | str s =>
      rw [toDatetime]
      cases parseDate s with
      | none => exact Or.inl rfl
      | some d => exact Or.inr ⟨d, rfl⟩

theorem toNumericFill0_shape (c : Cell) : ∃ q, toNumericFill0 c = Cell.num q := by
  rw [toNumericFill0]
  cases c with
  | na => exact ⟨0, rfl⟩
  | num q => exact ⟨q, rfl⟩
  | date d => exact ⟨0, rfl⟩
  | str s =>
      rw [toNumeric]
      cases parseDecimal s with
      | none => exact ⟨0, rfl⟩
      | some q => exact ⟨q, rfl⟩

theorem lookup_mem_snd {l : List (String × String)} {s v : String}
    (h : List.lookup s l = some v) : v ∈ l.map Prod.snd := by
  induction l with
  | nil => simp [List.lookup] at h
  | cons p l ih =>
      obtain ⟨k, w⟩ := p
      rw [List.lookup] at h
      cases hk : (s == k) with
      | true =>
          rw [hk] at h
          simp only [Option.some.injEq] at h
          subst h
          simp
      | false =>
          rw [hk] at h
          simp only [List.map_cons, List.mem_cons]
          exact Or.inr (ih h)

theorem statusCategoryCell_mem (c : Cell) :
    statusCategoryCell c ∈ ["Done", "In Progress", "To Do", "Other"] := by
  cases c with
  | str s =>
      rw [statusCategoryCell, statusCategoryOf]
      cases h : statusPairs.lookup (pyStrip s) with
      | none => simp
      | some v =>
          have hv := lookup_mem_snd h
          have hall : ∀ x ∈ statusPairs.map Prod.snd,
              x ∈ (["Done", "In Progress", "To Do", "Other"] : List String) := by decide
          simpa using hall v hv
  | na => simp [statusCategoryCell]
  | num q => simp [statusCategoryCell]
  | date d => simp [statusCategoryCell]

theorem mem_prepare_data {r : Row} {t : List Row} (h : r ∈ prepare_data t) :
    ∃ x, requiredPresent x = true ∧ r = process_jira_row (prepare_clean x) ∧
      ∃ y ∈ t, x = dateCols y := by
  rw [prepare_data] at h
  split at h
  · simp at h
  · rw [process_jira_data] at h
    obtain ⟨x2, hx2, hr⟩ := List.mem_map.mp h
    obtain ⟨x, hx, hcl⟩ := List.mem_map.mp hx2
    obtain ⟨hxmem, hxp⟩ := List.mem_filter.mp hx
    obtain ⟨y, hy, hxy⟩ := List.mem_map.mp hxmem
    exact ⟨x, hxp, by rw [← hr, ← hcl], y, hy, hxy.symm⟩

theorem clean_issue_key (x : Row) :
    (process_jira_row (prepare_clean x)).issue_key = x.issue_key := rfl

theorem clean_created (x : Row) :
    (process_jira_row (prepare_clean x)).created = toDatetime x.created := rfl

theorem clean_story_points (x : Row) :
    (process_jira_row (prepare_clean x)).story_points
      = toNumericFill0 (toNumericFill0 x.story_points) := rfl

theorem clean_statusCategory (x : Row) :
    (process_jira_row (prepare_clean x)).statusCategory
      = statusCategoryCell (fillnaCell x.status (Cell.str "In Progress")) := rfl

/-- C2 (amended): every row of load-then-prepare has a non-null issue key, a
parsed (non-null) created date, a numeric story-points value, and a status
category among the four enumerated values.  (The claim's remaining parts
fail: negative story points from the CSV are kept, and duplicate issue keys
are not removed - see the counterexample.) -/
theorem loadPrepare_invariants :
    ∀ input : Option Csv, ∀ r ∈ loadPrepare input,
      r.issue_key ≠ Cell.na ∧
      (∃ d, r.created = Cell.date d) ∧
      (∃ q, r.story_points = Cell.num q) ∧
      r.statusCategory ∈ ["Done", "In Progress", "To Do", "Other"] := by
  intro input r hr
  obtain ⟨x, hxp, hrx, y, hy, hxy⟩ := mem_prepare_data hr
  rw [requiredPresent, Bool.and_eq_true, Bool.not_eq_true', beq_eq_false_iff_ne,
    Bool.not_eq_true', beq_eq_false_iff_ne] at hxp
  refine ⟨?_, ?_, ?_, ?_⟩
  · rw [hrx, clean_issue_key]
    exact hxp.1
  · rw [hrx, clean_created]
    have hx : x.created = toDatetime y.created := by rw [hxy]; rfl
    rcases toDatetime_shape y.created with hna | ⟨d, hd⟩
    · exact absurd (hx.trans hna) hxp.2
    · exact ⟨d, by rw [hx, hd]; rfl⟩
  · rw [hrx, clean_story_points]
    exact toNumericFill0_shape _
  · rw [hrx, clean_statusCategory]
    exact statusCategoryCell_mem _

def c2Row : Row :=
  { issue_key := Cell.str "A", created := Cell.str "2024-01-01",
    status := Cell.str "Done", story_points := Cell.num (-5) }

def c2Csv : Csv := Csv.mk ["Issue key", "Created", "Status", "Story Points"] [c2Row, c2Row]

/-- C2, counterexample: a CSV with the required columns whose two rows carry
the same issue key and a negative story-points value passes load-then-prepare
with the duplicate keys intact and the story points still negative, refuting
the claimed `story_points ≥ 0` and `issue_key unique` invariants. -/
theorem loadPrepare_invariants_counterexample :
    (loadPrepare (some c2Csv)).map Row.issue_key = [Cell.str "A", Cell.str "A"] ∧
    (loadPrepare (some c2Csv)).map Row.story_points = [Cell.num (-5), Cell.num (-5)] ∧
    ¬ ((0 : ℚ) ≤ -5) := by decide

/-- Witness for C2 (amended): the first cleaned row of the concrete CSV. -/
theorem loadPrepare_invariants_witness :
    ((loadPrepare (some c2Csv)).headI ∈ loadPrepare (some c2Csv)) ∧
    ((loadPrepare (some c2Csv)).headI.issue_key ≠ Cell.na ∧
      (∃ d, (loadPrepare (some c2Csv)).headI.created = Cell.date d) ∧
      (∃ q, (loadPrepare (some c2Csv)).headI.story_points = Cell.num q) ∧
      (loadPrepare (some c2Csv)).headI.statusCategory
        ∈ ["Done", "In Progress", "To Do", "Other"]) :=
  ⟨by decide, loadPrepare_invariants (some c2Csv) _ (by decide)⟩

/-- C7: the modelled load operation is a total function (no exception escapes
on any path); a nonexistent file, a CSV missing one of the required columns
`Issue key`/`Created`/`Status`, and an empty dataset each yield an error
message together with an empty frame, and a load without error message
returns the file's rows unchanged. -/
theorem load_data_failure_semantics :
    ((load_data none).rows = [] ∧ (load_data none).error.isSome = true) ∧
    (∀ csv : Csv, ¬ (∀ c ∈ required_columns, c ∈ csv.cols) →
        (load_data (some csv)).rows = [] ∧ (load_data (some csv)).error.isSome = true) ∧
    (∀ csv : Csv, csv.rows = [] →
        (load_data (some csv)).rows = [] ∧ (load_data (some csv)).error.isSome = true) ∧
    (∀ csv : Csv, (load_data (some csv)).error = none →
        (load_data (some csv)).rows = csv.rows ∧ csv.rows ≠ []) := by
  refine ⟨⟨rfl, rfl⟩, ?_, ?_, ?_⟩
  · intro csv h
    rw [load_data]
    have hne : (required_columns.filter fun c => !(csv.cols.contains c)) ≠ [] := by
      intro hemp
      apply h
      intro c hc
      by_contra hcc
      have hpc : (!(csv.cols.contains c)) = true := by
        simp only [Bool.not_eq_true']
        rw [← Bool.not_eq_true]
        intro hct
        exact hcc (by simpa using hct)
      have : c ∈ required_columns.filter fun c => !(csv.cols.contains c) :=
        List.mem_filter.mpr ⟨hc, hpc⟩
      rw [hemp] at this
      simp at this
    rw [if_pos hne]
    exact ⟨rfl, rfl⟩
  · intro csv h
    rw [load_data]
    split
    all_goals simp_all
  · intro csv h
    rw [load_data] at h ⊢
    by_cases h1 : (required_columns.filter fun c => !(csv.cols.contains c)) ≠ []
    · rw [if_pos h1] at h
      simp at h
    · rw [if_neg h1] at h ⊢
      by_cases h2 : csv.rows = []
      · rw [if_pos h2] at h
        simp at h
      · rw [if_neg h2] at h ⊢
        exact ⟨rfl, h2⟩

/-- Witness for C7: a nonexistent file, a concrete CSV missing `Status`, and
a concrete empty CSV. -/
theorem load_data_failure_semantics_witness :
    (¬ (∀ c ∈ required_columns, c ∈ (Csv.mk ["Issue key", "Created"] []).cols) ∧
      ((load_data (some (Csv.mk ["Issue key", "Created"] []))).rows = [] ∧
        (load_data (some (Csv.mk ["Issue key", "Created"] []))).error.isSome = true)) ∧
    ((Csv.mk required_columns []).rows = [] ∧
      ((load_data (some (Csv.mk required_columns []))).rows = [] ∧
        (load_data (some (Csv.mk required_columns []))).error.isSome = true)) :=
  ⟨⟨by decide, load_data_failure_semantics.2.1 (Csv.mk ["Issue key", "Created"] []) (by decide)⟩,
   ⟨rfl, load_data_failure_semantics.2.2.1 (Csv.mk required_columns []) rfl⟩⟩

def c8Row : Row :=
  { issue_key := Cell.str "A", created := Cell.str "2024-01-01",
    status := Cell.str "Done", story_points := Cell.num 5,
    sprint := Cell.str " ,b" }

/-- C8, counterexample: `prepare` is not idempotent.  A sprint value whose
first comma-separated entry is all whitespace (here `" ,b"`) becomes the
empty string after one pass (comma split, then strip) but `"No Sprint"`
after a second pass (the empty string fails the non-empty test), so applying
`prepare` to `prepare(t)` changes the table. -/
theorem prepare_data_not_idempotent :
    prepare_data (prepare_data [c8Row]) ≠ prepare_data [c8Row] ∧
    (prepare_data [c8Row]).map Row.sprint = [Cell.str ""] ∧
    (prepare_data (prepare_data [c8Row])).map Row.sprint = [Cell.str "No Sprint"] := by
  decide

theorem dropWhile_eq_cons_head_false {α : Type} {p : α → Bool} {l : List α} {a : α}
    {as : List α} (h : l.dropWhile p = a :: as) : p a = false := by
  induction l with
  | nil => simp [List.dropWhile] at h
  | cons b bs ih =>
      rw [List.dropWhile_cons] at h
      by_cases hb : p b = true
      · rw [if_pos hb] at h
        exact ih h
      · rw [if_neg hb] at h
        injection h with h1 h2
        subst h1
        simpa using hb

theorem pyStripL_idem (cs : List Char) : pyStripL (pyStripL cs) = pyStripL cs := by
  have hform : ∀ l : List Char,
      pyStripL l = List.rdropWhile pyIsSpace (List.dropWhile pyIsSpace l) := by
    intro l
    rw [pyStripL, List.rdropWhile]
  rw [hform cs, hform (List.rdropWhile pyIsSpace (List.dropWhile pyIsSpace cs))]
  have hdrop :
      List.dropWhile pyIsSpace
          (List.rdropWhile pyIsSpace (List.dropWhile pyIsSpace cs))
        = List.rdropWhile pyIsSpace (List.dropWhile pyIsSpace cs) := by
    cases hy : List.rdropWhile pyIsSpace (List.dropWhile pyIsSpace cs) with
    | nil => rfl
    | cons a ys =>
        obtain ⟨t, ht⟩ := List.rdropWhile_prefix pyIsSpace (List.dropWhile pyIsSpace cs)
        rw [hy] at ht
        have hx : List.dropWhile pyIsSpace cs = a :: (ys ++ t) := by
          rw [← ht]
          rfl
        have hpa : pyIsSpace a = false := dropWhile_eq_cons_head_false hx
        rw [List.dropWhile_cons, if_neg (by simp [hpa])]
  rw [hdrop, List.rdropWhile_idempotent]

theorem pyStrip_idem (s : String) : pyStrip (pyStrip s) = pyStrip s :=
  congrArg String.mk (pyStripL_idem s.data)

theorem pyStripL_sublist (cs : List Char) : List.Sublist (pyStripL cs) cs := by
  rw [pyStripL, ← List.rdropWhile]
  exact ((List.rdropWhile_prefix pyIsSpace _).sublist).trans
    ((List.dropWhile_suffix pyIsSpace).sublist)

theorem mem_of_mem_pyStripL {c : Char} {cs : List Char} (h : c ∈ pyStripL cs) : c ∈ cs :=
  (pyStripL_sublist cs).subset h

theorem toDatetime_idem (c : Cell) : toDatetime (toDatetime c) = toDatetime c := by
  rcases toDatetime_shape c with h | ⟨d, h⟩ <;> rw [h] <;> rfl

theorem fillna_str_idem (c : Cell) (v : String) :
    fillnaCell (fillnaCell c (Cell.str v)) (Cell.str v) = fillnaCell c (Cell.str v) := by
  cases c <;> rfl

theorem toNumericFill0_idem (c : Cell) :
    toNumericFill0 (toNumericFill0 c) = toNumericFill0 c := by
  obtain ⟨q, h⟩ := toNumericFill0_shape c
  rw [h]
  rfl

/-- The per-row action of `prepare_data` after the date-conversion pass: the
column cleaning followed by the `process_jira_data` row action. -/
def cleanRow (r : Row) : Row := process_jira_row (prepare_clean r)

theorem cleanRow_issue_key (r : Row) : (cleanRow r).issue_key = r.issue_key := rfl

theorem cleanRow_created (r : Row) : (cleanRow r).created = toDatetime r.created := rfl

theorem cleanRow_resolved (r : Row) : (cleanRow r).resolved = toDatetime r.resolved := rfl

theorem cleanRow_updated (r : Row) : (cleanRow r).updated = toDatetime r.updated := rfl

theorem cleanRow_due_date (r : Row) : (cleanRow r).due_date = toDatetime r.due_date := rfl

theorem cleanRow_status (r : Row) :
    (cleanRow r).status = fillnaCell r.status (Cell.str "In Progress") := rfl

theorem cleanRow_sprint (r : Row) :
    (cleanRow r).sprint = Cell.str (processSprintStr (prepSprint r.sprint)) := rfl

theorem cleanRow_sprintNumber (r : Row) :
    (cleanRow r).sprintNumber = extract_sprint_number (processSprintStr (prepSprint r.sprint)) := rfl

theorem cleanRow_story_points (r : Row) :
    (cleanRow r).story_points = toNumericFill0 (toNumericFill0 r.story_points) := rfl

theorem cleanRow_resolutionDays (r : Row) :
    (cleanRow r).resolutionDays
      = resolutionDaysOf (toDatetime r.resolved) (toDatetime r.created) := rfl

theorem processSprintStr_stripped (c : Cell) :
    pyStrip (processSprintStr c) = processSprintStr c ∧ ',' ∉ (processSprintStr c).data := by
  rw [processSprintStr]
  by_cases hc : (cellStr (fillnaCell c (Cell.str "No Sprint"))).data.contains ','
  · rw [if_pos hc]
    refine ⟨congrArg String.mk (pyStripL_idem _), fun hmem => ?_⟩
    have h2 : ',' ∈ (cellStr (fillnaCell c (Cell.str "No Sprint"))).data.takeWhile
        (fun x => x ≠ ',') := mem_of_mem_pyStripL hmem
    have h3 := List.mem_takeWhile_imp h2
    simp at h3
  · rw [if_neg hc]
    refine ⟨pyStrip_idem _, fun hmem => ?_⟩
    have h2 : ',' ∈ (cellStr (fillnaCell c (Cell.str "No Sprint"))).data :=
      mem_of_mem_pyStripL hmem
    exact hc (by simpa using h2)

theorem processSprint_second {u : String} (hstrip : pyStrip u = u)
    (hcomma : ',' ∉ u.data) :
    processSprintStr (prepSprint (Cell.str u)) = if u = "" then "No Sprint" else u := by
  by_cases hu : u = ""
  · subst hu
    rw [if_pos rfl]
    decide
  · rw [if_neg hu]
    have hne : ¬ (pyStrip (cellStr (Cell.str u)) = "") := by
      intro h0
      apply hu
      rw [← hstrip]
      exact h0
    have hps : prepSprint (Cell.str u) = Cell.str u := by
      show (if pyStrip (cellStr (Cell.str u)) = "" then Cell.str "No Sprint"
        else Cell.str u) = Cell.str u
      rw [if_neg hne]
    have hcc : ¬ ((cellStr (fillnaCell (Cell.str u) (Cell.str "No Sprint"))).data.contains ','
        = true) := by
      simpa using hcomma
    rw [hps, processSprintStr, if_neg hcc]
    exact hstrip

theorem dateCols_cleanRow (r : Row) : dateCols (cleanRow r) = cleanRow r := by
  have h1 : toDatetime (cleanRow r).created = (cleanRow r).created :=
    toDatetime_idem r.created
  have h2 : toDatetime (cleanRow r).updated = (cleanRow r).updated :=
    toDatetime_idem r.updated
  have h3 : toDatetime (cleanRow r).resolved = (cleanRow r).resolved :=
    toDatetime_idem r.resolved
  have h4 : toDatetime (cleanRow r).due_date = (cleanRow r).due_date :=
    toDatetime_idem r.due_date
  rw [dateCols, h1, h2, h3, h4]

theorem cleanRow_priority (r : Row) :
    (cleanRow r).priority = Cell.str (cellStr (fillnaCell r.priority (Cell.str "Medium"))) := rfl

theorem cleanRow_issue_type (r : Row) :
    (cleanRow r).issue_type = Cell.str (cellStr (fillnaCell r.issue_type (Cell.str "Story"))) := rfl

theorem cleanRow_epic (r : Row) :
    (cleanRow r).epic = fillnaCell r.epic (Cell.str "No Epic") := rfl

theorem cleanRow_statusCategory (r : Row) :
    (cleanRow r).statusCategory
      = statusCategoryCell (fillnaCell r.status (Cell.str "In Progress")) := rfl

theorem cleanRow_completed (r : Row) :
    (cleanRow r).completed = completedCell (fillnaCell r.status (Cell.str "In Progress")) := rfl

theorem fillna_str (s : String) (v : Cell) : fillnaCell (Cell.str s) v = Cell.str s := rfl

theorem cellStr_str (s : String) : cellStr (Cell.str s) = s := rfl

theorem cleanRow_cube (r : Row) :
    cleanRow (cleanRow (cleanRow r)) = cleanRow (cleanRow r) := by
  obtain ⟨hstrip1, hcomma1⟩ := processSprintStr_stripped (prepSprint r.sprint)
  have hu2 := processSprint_second hstrip1 hcomma1
  obtain ⟨hstrip2, hcomma2⟩ :=
    processSprintStr_stripped (prepSprint (Cell.str (processSprintStr (prepSprint r.sprint))))
  have hu3 := processSprint_second hstrip2 hcomma2
  have hu2ne : processSprintStr (prepSprint
      (Cell.str (processSprintStr (prepSprint r.sprint)))) ≠ "" := by
    rw [hu2]
    by_cases h0 : processSprintStr (prepSprint r.sprint) = ""
    · rw [if_pos h0]
      decide
    · rw [if_neg h0]
      exact h0
  have hsprint3 :
      processSprintStr (prepSprint
          (Cell.str (processSprintStr (prepSprint
            (Cell.str (processSprintStr (prepSprint r.sprint)))))))
        = processSprintStr (prepSprint (Cell.str (processSprintStr (prepSprint r.sprint)))) := by
    rw [hu3, if_neg hu2ne]
  apply Row.ext <;>
    simp only [cleanRow_issue_key, cleanRow_created, cleanRow_resolved, cleanRow_updated,
      cleanRow_due_date, cleanRow_status, cleanRow_priority, cleanRow_issue_type,
      cleanRow_story_points, cleanRow_sprint, cleanRow_epic, cleanRow_statusCategory,
      cleanRow_completed, cleanRow_sprintNumber, cleanRow_resolutionDays,
      toDatetime_idem, fillna_str_idem, toNumericFill0_idem, fillna_str, cellStr_str,
      hsprint3]

theorem requiredPresent_cleanRow {r : Row} {d : ℤ} (hk : r.issue_key ≠ Cell.na)
    (hc : r.created = Cell.date d) :
    requiredPresent (cleanRow r) = true ∧ (cleanRow r).issue_key = r.issue_key ∧
      (cleanRow r).created = Cell.date d := by
  have hcr : (cleanRow r).created = Cell.date d := by
    rw [cleanRow_created, hc]
    rfl
  refine ⟨?_, rfl, hcr⟩
  rw [requiredPresent, cleanRow_issue_key, hcr]
  simp [hk]

theorem prepare_data_eq (t : List Row) (ht : t ≠ []) :
    prepare_data t = ((t.map dateCols).filter requiredPresent).map cleanRow := by
  rw [prepare_data, if_neg ht, process_jira_data, List.map_map]
  rfl

theorem mem_filterL_shape {x : Row} {t : List Row}
    (hx : x ∈ (t.map dateCols).filter requiredPresent) :
    x.issue_key ≠ Cell.na ∧ ∃ d, x.created = Cell.date d := by
  obtain ⟨hmem, hok⟩ := List.mem_filter.mp hx
  obtain ⟨y, hy, hxy⟩ := List.mem_map.mp hmem
  rw [requiredPresent, Bool.and_eq_true, Bool.not_eq_true', beq_eq_false_iff_ne,
    Bool.not_eq_true', beq_eq_false_iff_ne] at hok
  refine ⟨hok.1, ?_⟩
  have hxc : x.created = toDatetime y.created := by rw [← hxy]; rfl
  rcases toDatetime_shape y.created with hna | ⟨d, hd⟩
  · exact absurd (hxc.trans hna) hok.2
  · exact ⟨d, hxc.trans hd⟩

/-- C8 (amended): `prepare` is idempotent from the second application onward,
for every table: a third application of `prepare_data` returns the
twice-prepared table unchanged.  (A single application is not idempotent -
see the counterexample; the only unstable value is an empty cleaned sprint
string, which the second pass turns into `"No Sprint"`, after which every
column is a fixed point.) -/
theorem prepare_data_idempotent_from_second (t : List Row) :
    prepare_data (prepare_data (prepare_data t)) = prepare_data (prepare_data t) := by
  by_cases ht : t = []
  · subst ht
    rfl
  rw [prepare_data_eq t ht]
  by_cases hL : (t.map dateCols).filter requiredPresent = []
  · rw [hL]
    rfl
  have hshape : ∀ x ∈ (t.map dateCols).filter requiredPresent,
      x.issue_key ≠ Cell.na ∧ ∃ d, x.created = Cell.date d := fun x hx => mem_filterL_shape hx
  have hMne : ((t.map dateCols).filter requiredPresent).map cleanRow ≠ [] := by
    simpa using hL
  have h2 : prepare_data (((t.map dateCols).filter requiredPresent).map cleanRow)
      = ((t.map dateCols).filter requiredPresent).map (fun x => cleanRow (cleanRow x)) := by
    rw [prepare_data_eq _ hMne, List.map_map]
    have hdc : ((t.map dateCols).filter requiredPresent).map (dateCols ∘ cleanRow)
        = ((t.map dateCols).filter requiredPresent).map cleanRow :=
      List.map_congr_left fun x _ => dateCols_cleanRow x
    rw [hdc]
    have hok2 : ∀ r ∈ ((t.map dateCols).filter requiredPresent).map cleanRow,
        requiredPresent r = true := by
      intro r hr
      obtain ⟨x, hx, hrx⟩ := List.mem_map.mp hr
      obtain ⟨hk, d, hd⟩ := hshape x hx
      rw [← hrx]
      exact (requiredPresent_cleanRow hk hd).1
    rw [List.filter_eq_self.mpr hok2, List.map_map]
    rfl
  rw [h2]
  have hM2ne : ((t.map dateCols).filter requiredPresent).map
      (fun x => cleanRow (cleanRow x)) ≠ [] := by
    simpa using hL
  rw [prepare_data_eq _ hM2ne, List.map_map]
  have hdc2 : ((t.map dateCols).filter requiredPresent).map
        (dateCols ∘ fun x => cleanRow (cleanRow x))
      = ((t.map dateCols).filter requiredPresent).map (fun x => cleanRow (cleanRow x)) :=
    List.map_congr_left fun x _ => dateCols_cleanRow (cleanRow x)
  rw [hdc2]
  have hok3 : ∀ r ∈ ((t.map dateCols).filter requiredPresent).map
      (fun x => cleanRow (cleanRow x)), requiredPresent r = true := by
    intro r hr
    obtain ⟨x, hx, hrx⟩ := List.mem_map.mp hr
    obtain ⟨hk, d, hd⟩ := hshape x hx
    obtain ⟨_, hk1, hd1⟩ := requiredPresent_cleanRow hk hd
    rw [← hrx]
    exact (requiredPresent_cleanRow (by rw [hk1]; exact hk) hd1).1
  rw [List.filter_eq_self.mpr hok3, List.map_map]
  exact List.map_congr_left fun x _ => cleanRow_cube x

/-- Python `round(x, 1)` on a rational: round half to even at one decimal.
(Binary floating-point representation artifacts are not modelled; no claim
evaluates the rounding at a representation-dependent tie.) -/
def pyRound1 (q : ℚ) : ℚ :=
  if q * 10 - ⌊q * 10⌋ = 1 / 2 then
    (if ⌊q * 10⌋ % 2 = 0 then (⌊q * 10⌋ : ℚ) else (⌊q * 10⌋ : ℚ) + 1) / 10
  else ((round (q * 10) : ℤ) : ℚ) / 10

/-- The numeric value of a cell inside a `.fillna(0).sum()` aggregation
(missing counts as 0; the tables the dashboards aggregate hold numeric
story-points cells). -/
def cellNum : Cell → ℚ
  | Cell.num q => q
  | _ => 0

/-- The header-metrics dictionary returned by `calculate_metrics`
(src/ui/dashboard/view.py), with the nested `current`/`deltas` dicts
flattened into one record. -/
structure HeaderMetrics where
  total_issues : ℚ
  completed : ℚ
  story_points : ℚ
  completion_rate : ℚ
  deltas_total_issues : ℚ
  deltas_completed : ℚ
  deltas_story_points : ℚ
  deltas_completion_rate : ℚ
deriving DecidableEq, Repr

/-- `calculate_metrics` (src/ui/dashboard/view.py): for non-empty data,
total issues, the count of completed issues (seven-keyword predicate), the
story-point sum over completed issues only, and the completion rate rounded
to one decimal; the deltas are left at zero in this code path. -/
def calculate_metrics (data : Option (List Row)) : HeaderMetrics :=
  match data with
  | none => ⟨0, 0, 0, 0, 0, 0, 0, 0⟩
  | some rows =>
      if rows = [] then ⟨0, 0, 0, 0, 0, 0, 0, 0⟩
      else
        ⟨rows.length,
         (rows.filter (fun r => completedCell r.status)).length,
         ((rows.filter (fun r => completedCell r.status)).map
            (fun r => cellNum r.story_points)).sum,
         if 0 < rows.length then
           pyRound1 (((rows.filter (fun r => completedCell r.status)).length : ℚ)
             / (rows.length : ℚ) * 100)
         else 0,
         0, 0, 0, 0⟩

def c3Rows : List Row :=
  [ { status := Cell.str "Done" }, { status := Cell.str "To Do" },
    { status := Cell.str "To Do" } ]

/-- C3, counterexample: on a three-row table with one completed issue the
code reports `round(100/3, 1) = 33.3`, not the claimed exact value
`100 * 1 / 3`: the completion rate is rounded to one decimal place. -/
theorem completion_rate_counterexample :
    (calculate_metrics (some c3Rows)).completion_rate = 333 / 10 ∧
    (100 * (1 : ℚ) / 3) ≠ 333 / 10 := by
  constructor
  · have hfilter : c3Rows.filter (fun r => completedCell r.status)
        = [{ status := Cell.str "Done" }] := by decide
    have hne : c3Rows ≠ [] := by decide
    have hpos : 0 < c3Rows.length := by decide
    simp only [calculate_metrics, if_neg hne, if_pos hpos, hfilter]
    norm_num [pyRound1, round_eq, c3Rows]
  · norm_num

/-- C3 (amended): for every non-empty table the completion rate equals
`100 * count(completed) / count(rows)` rounded to one decimal place
(together with the unrounded total and completed counts), and the rate is
`0.0` for an empty or missing table - no division by zero occurs. -/
theorem calculate_metrics_spec :
    (∀ rows : List Row, rows ≠ [] →
      (calculate_metrics (some rows)).completion_rate
        = pyRound1 (((rows.filter (fun r => completedCell r.status)).length : ℚ)
            / (rows.length : ℚ) * 100) ∧
      (calculate_metrics (some rows)).total_issues = rows.length ∧
      (calculate_metrics (some rows)).completed
        = (rows.filter (fun r => completedCell r.status)).length) ∧
    (calculate_metrics none).completion_rate = 0 ∧
    (calculate_metrics (some [])).completion_rate = 0 := by
  refine ⟨fun rows h => ?_, rfl, rfl⟩
  have hpos : 0 < rows.length := List.length_pos.mpr h
  refine ⟨?_, ?_, ?_⟩ <;> simp [calculate_metrics, if_neg h, if_pos hpos]

/-- Witness for C3 (amended): the three-row table. -/
theorem calculate_metrics_spec_witness :
    c3Rows ≠ [] ∧
      ((calculate_metrics (some c3Rows)).completion_rate
        = pyRound1 (((c3Rows.filter (fun r => completedCell r.status)).length : ℚ)
            / (c3Rows.length : ℚ) * 100) ∧
       (calculate_metrics (some c3Rows)).total_issues = c3Rows.length ∧
       (calculate_metrics (some c3Rows)).completed
        = (c3Rows.filter (fun r => completedCell r.status)).length) :=
  ⟨by decide, calculate_metrics_spec.1 c3Rows (by decide)⟩

/-- `calculate_delta_percentage` (src/ui/dashboard/metrics.py). -/
def calculate_delta_percentage (current previous : ℚ) : ℚ :=
  if previous = 0 then 0 else (current - previous) / previous * 100

/-- The `{total_issues, completed, story_points}` dictionary of one sprint
bucket in `get_sprint_metrics`. -/
structure SprintStats where
  total_issues : ℚ
  completed : ℚ
  story_points : ℚ
deriving DecidableEq, Repr

/-- The `{current, previous, deltas}` dictionary returned by
`get_sprint_metrics`. -/
structure SprintMetricsResult where
  current : SprintStats
  previous : SprintStats
  deltas : SprintStats
deriving DecidableEq, Repr

def zeroStats : SprintStats := ⟨0, 0, 0⟩

/-- `data[data["Sprint"] == name]`. -/
def sprintRows (data : List Row) (name : String) : List Row :=
  data.filter (fun r => r.sprint == Cell.str name)

/-- `rows[rows["Status"].apply(is_completed_status)]` (seven-keyword set). -/
def completedOnly (rows : List Row) : List Row :=
  rows.filter (fun r => completedCell r.status)

/-- `rows[...is_completed...]["Story Points"].fillna(0).sum()`: the
story-point sum over completed rows only. -/
def completedPoints (rows : List Row) : ℚ :=
  ((completedOnly rows).map (fun r => cellNum r.story_points)).sum

/-- `get_sprint_metrics` (src/ui/dashboard/metrics.py): all-zero metrics for
empty data or when the current sprint has no rows; previous metrics and
deltas are filled in only when a non-empty previous sprint name is given
(`if previous_sprint:` - `None` and `""` are both falsy) and matches at
least one row. -/
def get_sprint_metrics (data : List Row) (current_sprint : String) :
    Option String → SprintMetricsResult
  | none =>
      if data = [] then ⟨zeroStats, zeroStats, zeroStats⟩
      else if sprintRows data current_sprint = [] then ⟨zeroStats, zeroStats, zeroStats⟩
      else
        ⟨⟨(sprintRows data current_sprint).length,
          (completedOnly (sprintRows data current_sprint)).length,
          completedPoints (sprintRows data current_sprint)⟩, zeroStats, zeroStats⟩
  | some p =>
      if data = [] then ⟨zeroStats, zeroStats, zeroStats⟩
      else if sprintRows data current_sprint = [] then ⟨zeroStats, zeroStats, zeroStats⟩
      else if p = "" then
        ⟨⟨(sprintRows data current_sprint).length,
          (completedOnly (sprintRows data current_sprint)).length,
          completedPoints (sprintRows data current_sprint)⟩, zeroStats, zeroStats⟩
      else if sprintRows data p = [] then
        ⟨⟨(sprintRows data current_sprint).length,
          (completedOnly (sprintRows data current_sprint)).length,
          completedPoints (sprintRows data current_sprint)⟩, zeroStats, zeroStats⟩
      else
        ⟨⟨(sprintRows data current_sprint).length,
          (completedOnly (sprintRows data current_sprint)).length,
          completedPoints (sprintRows data current_sprint)⟩,
         ⟨(sprintRows data p).length,
          (completedOnly (sprintRows data p)).length,
          completedPoints (sprintRows data p)⟩,
         ⟨calculate_delta_percentage ((sprintRows data current_sprint).length : ℚ)
            ((sprintRows data p).length : ℚ),
          calculate_delta_percentage ((completedOnly (sprintRows data current_sprint)).length : ℚ)
            ((completedOnly (sprintRows data p)).length : ℚ),
          calculate_delta_percentage (completedPoints (sprintRows data current_sprint))
            (completedPoints (sprintRows data p))⟩⟩

theorem get_sprint_metrics_full {data : List Row} {cur p : String}
    (h1 : sprintRows data cur ≠ []) (h2 : p ≠ "") (h3 : sprintRows data p ≠ []) :
    get_sprint_metrics data cur (some p) =
      ⟨⟨(sprintRows data cur).length, (completedOnly (sprintRows data cur)).length,
        completedPoints (sprintRows data cur)⟩,
       ⟨(sprintRows data p).length, (completedOnly (sprintRows data p)).length,
        completedPoints (sprintRows data p)⟩,
       ⟨calculate_delta_percentage ((sprintRows data cur).length : ℚ)
          ((sprintRows data p).length : ℚ),
        calculate_delta_percentage ((completedOnly (sprintRows data cur)).length : ℚ)
          ((completedOnly (sprintRows data p)).length : ℚ),
        calculate_delta_percentage (completedPoints (sprintRows data cur))
          (completedPoints (sprintRows data p))⟩⟩ := by
  have hne : data ≠ [] := by
    intro h0
    apply h1
    rw [h0]
    rfl
  rw [get_sprint_metrics, if_neg hne, if_neg h1, if_neg h2, if_neg h3]

theorem get_sprint_metrics_current_points (data : List Row) (cur : String)
    (p : Option String) :
    (get_sprint_metrics data cur p).current.story_points
      = completedPoints (sprintRows data cur) := by
  have hz : ∀ d c, sprintRows d c = [] → completedPoints (sprintRows d c) = 0 := by
    intro d c h
    rw [h]
    rfl
  cases p with
  | none =>
      rw [get_sprint_metrics]
      by_cases hd : data = []
      · rw [if_pos hd, hd, hz [] cur (by rfl)]
        rfl
      rw [if_neg hd]
      by_cases hc : sprintRows data cur = []
      · rw [if_pos hc, hz data cur hc]
        rfl
      · rw [if_neg hc]
  | some q =>
      rw [get_sprint_metrics]
      by_cases hd : data = []
      · rw [if_pos hd, hd, hz [] cur (by rfl)]
        rfl
      rw [if_neg hd]
      by_cases hc : sprintRows data cur = []
      · rw [if_pos hc, hz data cur hc]
        rfl
      rw [if_neg hc]
      by_cases hq : q = ""
      · rw [if_pos hq]
      rw [if_neg hq]
      by_cases hqr : sprintRows data q = []
      · rw [if_pos hqr]
      · rw [if_neg hqr]

def mkIssue (k sp st : String) (pts : ℚ) : Row :=
  { issue_key := Cell.str k, sprint := Cell.str sp, status := Cell.str st,
    story_points := Cell.num pts }

def c6Row : Row := mkIssue "B1" "B" "Done" 3

/-- C6, counterexample: when the current sprint has no rows,
`get_sprint_metrics` returns early with all deltas 0, while the claimed
formula `(current - previous) / previous * 100` evaluates to `-100` for the
non-empty previous sprint - so the deltas are not always given by the
formula. -/
theorem sprint_deltas_counterexample :
    (get_sprint_metrics [c6Row] "A" (some "B")).deltas.total_issues = 0 ∧
    calculate_delta_percentage ((sprintRows [c6Row] "A").length : ℚ)
        ((sprintRows [c6Row] "B").length : ℚ) = -100 ∧
    (0 : ℚ) ≠ -100 := by
  refine ⟨by decide, ?_, by norm_num⟩
  have h1 : sprintRows [c6Row] "A" = [] := by decide
  have h2 : sprintRows [c6Row] "B" = [c6Row] := by decide
  rw [h1, h2]
  norm_num [calculate_delta_percentage]

def c6Table : List Row :=
  (List.range 7).map (fun i => mkIssue (toString i) "S2" "Done" 4) ++
  (List.range 3).map (fun i => mkIssue (toString (i + 7)) "S2" "In Progress" 9) ++
  (List.range 5).map (fun i => mkIssue (toString (i + 10)) "S1" "Closed" 3) ++
  (List.range 3).map (fun i => mkIssue (toString (i + 15)) "S1" "To Do" 2)

/-- C6 (amended): whenever the current sprint has at least one row, a
non-empty previous sprint name is given and it also has at least one row,
`get_sprint_metrics` filters rows by sprint-name equality and each delta is
`(current - previous) / previous * 100` (0 when the previous value is 0);
when no previous sprint is given the deltas are 0; and when the current
sprint has no rows everything is returned as 0 regardless of the previous
sprint (see the counterexample).  The documented scenario (current
`{total 10, completed 7, points 28}` against previous
`{total 8, completed 5, points 15}`) yields deltas `{25, 40, 260/3}`. -/
theorem get_sprint_metrics_spec :
    (∀ (data : List Row) (cur p : String),
      sprintRows data cur ≠ [] → p ≠ "" → sprintRows data p ≠ [] →
        (get_sprint_metrics data cur (some p)).current.total_issues
            = ((sprintRows data cur).length : ℚ) ∧
        (get_sprint_metrics data cur (some p)).current.completed
            = ((completedOnly (sprintRows data cur)).length : ℚ) ∧
        (get_sprint_metrics data cur (some p)).deltas.total_issues
            = calculate_delta_percentage ((sprintRows data cur).length : ℚ)
                ((sprintRows data p).length : ℚ) ∧
        (get_sprint_metrics data cur (some p)).deltas.completed
            = calculate_delta_percentage ((completedOnly (sprintRows data cur)).length : ℚ)
                ((completedOnly (sprintRows data p)).length : ℚ) ∧
        (get_sprint_metrics data cur (some p)).deltas.story_points
            = calculate_delta_percentage (completedPoints (sprintRows data cur))
                (completedPoints (sprintRows data p))) ∧
    (∀ (data : List Row) (cur : String),
        (get_sprint_metrics data cur none).deltas = zeroStats) ∧
    (get_sprint_metrics c6Table "S2" (some "S1")).deltas = ⟨25, 40, 260 / 3⟩ := by
  refine ⟨fun data cur p h1 h2 h3 => ?_, fun data cur => ?_, ?_⟩
  · rw [get_sprint_metrics_full h1 h2 h3]
    exact ⟨rfl, rfl, rfl, rfl, rfl⟩
  · rw [get_sprint_metrics]
    split_ifs <;> rfl
  · have h1 : sprintRows c6Table "S2" ≠ [] := by decide
    have h2 : ("S1" : String) ≠ "" := by decide
    have h3 : sprintRows c6Table "S1" ≠ [] := by decide
    rw [get_sprint_metrics_full h1 h2 h3]
    have e1 : (sprintRows c6Table "S2").length = 10 := by decide
    have e2 : (sprintRows c6Table "S1").length = 8 := by decide
    have e3 : (completedOnly (sprintRows c6Table "S2")).length = 7 := by decide
    have e4 : (completedOnly (sprintRows c6Table "S1")).length = 5 := by decide
    have e5 : completedPoints (sprintRows c6Table "S2") = 28 := by
      have hm : (completedOnly (sprintRows c6Table "S2")).map
          (fun r => cellNum r.story_points) = [4, 4, 4, 4, 4, 4, 4] := by decide
      rw [completedPoints, hm]
      norm_num
    have e6 : completedPoints (sprintRows c6Table "S1") = 15 := by
      have hm : (completedOnly (sprintRows c6Table "S1")).map
          (fun r => cellNum r.story_points) = [3, 3, 3, 3, 3] := by decide
      rw [completedPoints, hm]
      norm_num
    rw [e1, e2, e3, e4, e5, e6]
    norm_num [calculate_delta_percentage]

/-- Witness for C6 (amended): the scenario table with current "S2" and
previous "S1". -/
theorem get_sprint_metrics_spec_witness :
    (sprintRows c6Table "S2" ≠ [] ∧ ("S1" : String) ≠ "" ∧
      sprintRows c6Table "S1" ≠ []) ∧
    ((get_sprint_metrics c6Table "S2" (some "S1")).current.total_issues
        = ((sprintRows c6Table "S2").length : ℚ) ∧
      (get_sprint_metrics c6Table "S2" (some "S1")).current.completed
        = ((completedOnly (sprintRows c6Table "S2")).length : ℚ) ∧
      (get_sprint_metrics c6Table "S2" (some "S1")).deltas.total_issues
        = calculate_delta_percentage ((sprintRows c6Table "S2").length : ℚ)
            ((sprintRows c6Table "S1").length : ℚ) ∧
      (get_sprint_metrics c6Table "S2" (some "S1")).deltas.completed
        = calculate_delta_percentage ((completedOnly (sprintRows c6Table "S2")).length : ℚ)
            ((completedOnly (sprintRows c6Table "S1")).length : ℚ) ∧
      (get_sprint_metrics c6Table "S2" (some "S1")).deltas.story_points
        = calculate_delta_percentage (completedPoints (sprintRows c6Table "S2"))
            (completedPoints (sprintRows c6Table "S1"))) :=
  ⟨⟨by decide, by decide, by decide⟩,
   get_sprint_metrics_spec.1 c6Table "S2" "S1" (by decide) (by decide) (by decide)⟩

def c10Row : Row := mkIssue "X1" "S1" "Done" 5

/-- C10, counterexample: when the current sprint has no rows the function
returns early, so the reported previous story points are 0 even though the
previous sprint has a completed row worth 5 points - the claimed sum does
not describe the previous bucket in that case. -/
theorem sprint_points_previous_counterexample :
    (get_sprint_metrics [c10Row] "S2" (some "S1")).previous.story_points = 0 ∧
    completedPoints (sprintRows [c10Row] "S1") = 5 ∧ (0 : ℚ) ≠ 5 := by
  refine ⟨by decide, ?_, by norm_num⟩
  have hm : (completedOnly (sprintRows [c10Row] "S1")).map
      (fun r => cellNum r.story_points) = [5] := by decide
  rw [completedPoints, hm]
  norm_num

/-- C10 (amended): the story points `get_sprint_metrics` reports for the
current sprint always equal the sum of Story Points over the completed rows
only of that sprint; the same holds for the previous sprint whenever the
current sprint has rows and a non-empty previous sprint with rows is given
(otherwise the previous bucket is reported as 0). -/
theorem sprint_story_points_completed_only :
    (∀ (data : List Row) (cur : String) (p : Option String),
      (get_sprint_metrics data cur p).current.story_points
        = completedPoints (sprintRows data cur)) ∧
    (∀ (data : List Row) (cur p : String),
      sprintRows data cur ≠ [] → p ≠ "" → sprintRows data p ≠ [] →
        (get_sprint_metrics data cur (some p)).previous.story_points
          = completedPoints (sprintRows data p)) := by
  refine ⟨get_sprint_metrics_current_points, fun data cur p h1 h2 h3 => ?_⟩
  rw [get_sprint_metrics_full h1 h2 h3]

/-- Witness for C10 (amended): the scenario table. -/
theorem sprint_story_points_completed_only_witness :
    (sprintRows c6Table "S2" ≠ [] ∧ ("S1" : String) ≠ "" ∧
      sprintRows c6Table "S1" ≠ []) ∧
    (get_sprint_metrics c6Table "S2" (some "S1")).previous.story_points
      = completedPoints (sprintRows c6Table "S1") :=
  ⟨⟨by decide, by decide, by decide⟩,
   sprint_story_points_completed_only.2 c6Table "S2" "S1" (by decide) (by decide) (by decide)⟩

/-- Does `pat` occur as a contiguous substring of `hay`?  (`.str.contains`
with a plain-text pattern.) -/
def containsSub : List Char → List Char → Bool
  | [], pat => pat.isEmpty
  | c :: t, pat => pat.isPrefixOf (c :: t) || containsSub t pat

/-- `drop_duplicates` / `unique`: keep the first occurrence of each value. -/
def dedupKFAux {α : Type} [DecidableEq α] (seen : List α) : List α → List α
  | [] => []
  | a :: l => if a ∈ seen then dedupKFAux seen l else a :: dedupKFAux (a :: seen) l

theorem mem_dedupKFAux {α : Type} [DecidableEq α] :
    ∀ (l seen : List α) (x : α), x ∈ dedupKFAux seen l ↔ x ∈ l ∧ x ∉ seen := by
  intro l
  induction l with
  | nil => intro seen x; simp [dedupKFAux]
  | cons a l ih =>
      intro seen x
      rw [dedupKFAux]
      by_cases ha : a ∈ seen
      · rw [if_pos ha, ih]
        constructor
        · rintro ⟨h1, h2⟩
          exact ⟨List.mem_cons_of_mem a h1, h2⟩
        · rintro ⟨h1, h2⟩
          rcases List.mem_cons.mp h1 with h | h
          · subst h; exact absurd ha h2
          · exact ⟨h, h2⟩
      · rw [if_neg ha]
        constructor
        · intro hx
          rcases List.mem_cons.mp hx with h | h
          · subst h; exact ⟨List.mem_cons_self _ _, ha⟩
          · obtain ⟨h1, h2⟩ := (ih _ x).mp h
            refine ⟨List.mem_cons_of_mem a h1, fun hc => h2 (List.mem_cons_of_mem a hc)⟩
        · rintro ⟨h1, h2⟩
          by_cases hxa : x = a
          · subst hxa; exact List.mem_cons_self _ _
          · rcases List.mem_cons.mp h1 with h | h
            · exact absurd h hxa
            · refine List.mem_cons_of_mem a ((ih _ x).mpr ⟨h, fun hc => ?_⟩)
              rcases List.mem_cons.mp hc with h3 | h3
              · exact hxa h3
              · exact h2 h3

/-- Insertion sort by a boolean "comes-before" relation. -/
def insertBy {α : Type} (le : α → α → Bool) (a : α) : List α → List α
  | [] => [a]
  | b :: l => if le a b then a :: b :: l else b :: insertBy le a l

def sortBy {α : Type} (le : α → α → Bool) : List α → List α
  | [] => []
  | a :: l => insertBy le a (sortBy le l)

theorem mem_insertBy {α : Type} (le : α → α → Bool) (a x : α) :
    ∀ l : List α, x ∈ insertBy le a l ↔ x = a ∨ x ∈ l := by
  intro l
  induction l with
  | nil => simp [insertBy]
  | cons b l ih =>
      rw [insertBy]
      by_cases h : le a b
      · rw [if_pos h]
        simp
      · rw [if_neg h]
        simp only [List.mem_cons, ih]
        tauto

theorem mem_sortBy {α : Type} (le : α → α → Bool) (x : α) :
    ∀ l : List α, x ∈ sortBy le l ↔ x ∈ l := by
  intro l
  induction l with
  | nil => simp [sortBy]
  | cons a l ih =>
      rw [sortBy, mem_insertBy]
      simp only [List.mem_cons, ih]

theorem pairwise_insertBy {α : Type} (le : α → α → Bool)
    (htotal : ∀ a b, le a b = true ∨ le b a = true)
    (htrans : ∀ a b c, le a b = true → le b c = true → le a c = true)
    (a : α) (l : List α) (h : List.Pairwise (fun x y => le x y = true) l) :
    List.Pairwise (fun x y => le x y = true) (insertBy le a l) := by
  induction l with
  | nil => simp [insertBy]
  | cons b l ih =>
      rw [insertBy]
      rcases List.pairwise_cons.mp h with ⟨hb, hl⟩
      by_cases hab : le a b
      · rw [if_pos hab]
        refine List.pairwise_cons.mpr ⟨?_, h⟩
        intro y hy
        rcases List.mem_cons.mp hy with h1 | h1
        · subst h1; exact hab
        · exact htrans a b y hab (hb y h1)
      · rw [if_neg hab]
        refine List.pairwise_cons.mpr ⟨?_, ih hl⟩
        intro y hy
        rcases (mem_insertBy le a y l).mp hy with h1 | h1
        · rcases htotal a b with h2 | h2
          · exact absurd h2 hab
          · rw [h1]
            exact h2
        · exact hb y h1

theorem pairwise_sortBy {α : Type} (le : α → α → Bool)
    (htotal : ∀ a b, le a b = true ∨ le b a = true)
    (htrans : ∀ a b c, le a b = true → le b c = true → le a c = true)
    (l : List α) : List.Pairwise (fun x y => le x y = true) (sortBy le l) := by
  induction l with
  | nil => simp [sortBy]
  | cons a l ih =>
      rw [sortBy]
      exact pairwise_insertBy le htotal htrans a _ ih

/-- The filter of `get_available_sprints`:
`data["Sprint"].str.contains("BP: EFDDH Sprint", na=False)` on one cell
(non-string cells give `False`). -/
def sprintPatMatch : Cell → Bool
  | Cell.str s => containsSub s.data ("BP: EFDDH Sprint".data)
  | _ => false

/-- The `(Sprint, Sprint Number)` pairs of `get_available_sprints` after
`drop_duplicates`, the pattern filter, and the descending sort on
`Sprint Number`.  (pandas `sort_values` uses an unstable quicksort, so the
relative order of equal sprint numbers is unspecified; the insertion sort
used here realizes one admissible order.) -/
def availablePairs (data : List Row) : List (Cell × Int) :=
  sortBy (fun p q => decide (q.2 ≤ p.2))
    ((dedupKFAux [] (data.map (fun r => (r.sprint, r.sprintNumber)))).filter
      (fun p => sprintPatMatch p.1))

/-- `get_available_sprints` (src/ui/dashboard/sprint_selector.py). -/
def get_available_sprints (data : List Row) : List String :=
  if data = [] then []
  else (availablePairs data).map (fun p => cellStr p.1)

/-- The tail of a string after the first occurrence of "Sprint"
(`s.split("Sprint")[1:]` viewed from the front); `none` when "Sprint" does
not occur (`len(parts) == 1`). -/
def afterFirstSprint : List Char → Option (List Char)
  | [] => none
  | c :: t =>
      if sprintLit.isPrefixOf (c :: t) then some ((c :: t).drop 6)
      else afterFirstSprint t

/-- The prefix of a character list up to (excluding) the first occurrence of
"Sprint". -/
def beforeSprint : List Char → List Char
  | [] => []
  | c :: t => if sprintLit.isPrefixOf (c :: t) then [] else c :: beforeSprint t

/-- Python `int(string)`: optional surrounding whitespace, an optional sign,
then decimal digits (digit-group underscores do not occur in the data). -/
def pyInt (s : String) : Option Int :=
  match pyStripL s.data with
  | '-' :: ds => if !ds.isEmpty && ds.all Char.isDigit then some (-(digitsVal ds : Int)) else none
  | '+' :: ds => if !ds.isEmpty && ds.all Char.isDigit then some (digitsVal ds) else none
  | ds => if !ds.isEmpty && ds.all Char.isDigit then some (digitsVal ds) else none

/-- The per-name parse of `get_current_sprint` (src/ui/dashboard/view.py):
`parts = s.split("Sprint")`; require a second part whose strip is non-empty,
then `int(parts[1].strip())`; parse failures drop the name. -/
def viewSprintNumber (s : String) : Option Int :=
  match afterFirstSprint s.data with
  | none => none
  | some rest =>
      if (pyStripL (beforeSprint rest)).isEmpty then none
      else pyInt ⟨beforeSprint rest⟩

/-- The `sprint_numbers` dictionary of `get_current_sprint` in insertion
order: unique non-missing sprint values (first-occurrence order), keeping
those whose name parses. -/
def sprintCandidates (data : List Row) : List (String × Int) :=
  (dedupKFAux [] (data.map (fun r => r.sprint))).filterMap
    (fun c => match c with
      | Cell.str s =>
          match viewSprintNumber s with
          | some n => some (s, n)
          | none => none
      | _ => none)

/-- Python `max(keys, key=...)`: left fold keeping the first maximum. -/
def maxByFirst : List (String × Int) → Option (String × Int)
  | [] => none
  | p :: l => some (l.foldl (fun best q => if q.2 > best.2 then q else best) p)

/-- `get_current_sprint` (src/ui/dashboard/view.py). -/
def get_current_sprint : Option (List Row) → String
  | none => "No Sprint Data"
  | some rows =>
      if rows = [] then "No Sprint Data"
      else
        match maxByFirst (sprintCandidates rows) with
        | some p => p.1
        | none => "No Sprint Data"

theorem foldl_maxBy_spec (l : List (String × Int)) :
    ∀ b : String × Int,
      (l.foldl (fun best q => if q.2 > best.2 then q else best) b = b ∨
        l.foldl (fun best q => if q.2 > best.2 then q else best) b ∈ l) ∧
      b.2 ≤ (l.foldl (fun best q => if q.2 > best.2 then q else best) b).2 ∧
      ∀ q ∈ l, q.2 ≤ (l.foldl (fun best q => if q.2 > best.2 then q else best) b).2 := by
  induction l with
  | nil => exact fun b => ⟨Or.inl rfl, le_refl _, by simp⟩
  | cons p l ih =>
      intro b
      by_cases hpb : p.2 > b.2
      · rw [List.foldl_cons, if_pos hpb]
        obtain ⟨hmem, hle, hall⟩ := ih p
        refine ⟨?_, le_trans (le_of_lt hpb) hle, ?_⟩
        · rcases hmem with h | h
          · refine Or.inr ?_
            rw [h]
            exact List.mem_cons_self p l
          · exact Or.inr (List.mem_cons_of_mem p h)
        · intro q hq
          rcases List.mem_cons.mp hq with h | h
          · rw [h]
            exact hle
          · exact hall q h
      · rw [List.foldl_cons, if_neg hpb]
        obtain ⟨hmem, hle, hall⟩ := ih b
        refine ⟨?_, hle, ?_⟩
        · rcases hmem with h | h
          · exact Or.inl h
          · exact Or.inr (List.mem_cons_of_mem p h)
        · intro q hq
          rcases List.mem_cons.mp hq with h | h
          · rw [h]
            exact le_trans (le_of_not_lt hpb) hle
          · exact hall q h

theorem maxByFirst_spec {l : List (String × Int)} {p : String × Int}
    (h : maxByFirst l = some p) : p ∈ l ∧ ∀ q ∈ l, q.2 ≤ p.2 := by
  cases l with
  | nil => simp [maxByFirst] at h
  | cons b l =>
      rw [maxByFirst, Option.some.injEq] at h
      obtain ⟨hmem, hle, hall⟩ := foldl_maxBy_spec l b
      refine ⟨?_, ?_⟩
      · rw [← h]
        rcases hmem with h2 | h2
        · rw [h2]
          exact List.mem_cons_self b l
        · exact List.mem_cons_of_mem b h2
      · intro q hq
        rw [← h]
        rcases List.mem_cons.mp hq with h2 | h2
        · rw [h2]
          exact hle
        · exact hall q h2

def c9Raw : List Row :=
  [ { issue_key := Cell.str "K1", created := Cell.str "2024-01-01",
      status := Cell.str "Done", sprint := Cell.str "Sprint5x" },
    { issue_key := Cell.str "K2", created := Cell.str "2024-01-02",
      status := Cell.str "Done", sprint := Cell.str "Sprint 3" } ]

/-- C9, counterexample: in the cleaned table the sprint "Sprint5x" has the
maximum `sprint_number` (the regex gives 5 > 3), but `get_current_sprint`
parses names with `int(s.split("Sprint")[1])`, which fails on "5x", so it
returns "Sprint 3" instead of the sprint with the maximum sprint number. -/
theorem get_current_sprint_counterexample :
    (prepare_data c9Raw).map Row.sprintNumber = [5, 3] ∧
    (prepare_data c9Raw).map Row.sprint = [Cell.str "Sprint5x", Cell.str "Sprint 3"] ∧
    get_current_sprint (some (prepare_data c9Raw)) = "Sprint 3" ∧
    ("Sprint 3" : String) ≠ "Sprint5x" := by decide

/-- C9 (amended): `get_available_sprints` returns the distinct sprint values
matching the literal pattern "BP: EFDDH Sprint", sorted descending by
`Sprint Number` (pairwise order proved on the name/number pairs, whose
names the function returns).  `get_current_sprint` returns "No Sprint Data"
for missing/empty data or when no sprint name parses under its own rule -
`int` applied to the text between the first "Sprint" and the next one - and
otherwise returns a sprint name whose parsed value is maximal among the
parsed names (not necessarily the one with the maximal `sprint_number`; see
the counterexample). -/
theorem sprint_selector_spec :
    (∀ data : List Row,
      List.Pairwise (fun x y : Cell × Int => y.2 ≤ x.2) (availablePairs data) ∧
      (∀ p : Cell × Int, p ∈ availablePairs data ↔
        p ∈ data.map (fun r => (r.sprint, r.sprintNumber)) ∧ sprintPatMatch p.1 = true) ∧
      (data ≠ [] →
        get_available_sprints data = (availablePairs data).map (fun p => cellStr p.1))) ∧
    (∀ rows : List Row, rows ≠ [] →
      (sprintCandidates rows = [] ∧ get_current_sprint (some rows) = "No Sprint Data") ∨
      (∃ n : Int, (get_current_sprint (some rows), n) ∈ sprintCandidates rows ∧
        ∀ q ∈ sprintCandidates rows, q.2 ≤ n)) ∧
    get_current_sprint none = "No Sprint Data" := by
  refine ⟨fun data => ⟨?_, ?_, ?_⟩, fun rows h => ?_, rfl⟩
  · have hpw := pairwise_sortBy (fun p q : Cell × Int => decide (q.2 ≤ p.2))
      (fun a b => by
        rcases le_total b.2 a.2 with h | h
        · exact Or.inl (by simpa using h)
        · exact Or.inr (by simpa using h))
      (fun a b c h1 h2 => by
        simp only [decide_eq_true_eq] at h1 h2 ⊢
        exact le_trans h2 h1)
      ((dedupKFAux [] (data.map (fun r => (r.sprint, r.sprintNumber)))).filter
        (fun p => sprintPatMatch p.1))
    rw [availablePairs]
    exact hpw.imp (by simp)
  · intro p
    rw [availablePairs, mem_sortBy, List.mem_filter, mem_dedupKFAux]
    simp
  · intro h
    rw [get_available_sprints, if_neg h]
  · cases hm : maxByFirst (sprintCandidates rows) with
    | none =>
        left
        have hg : get_current_sprint (some rows) = "No Sprint Data" := by
          rw [get_current_sprint, if_neg h, hm]
        refine ⟨?_, hg⟩
        cases hc : sprintCandidates rows with
        | nil => rfl
        | cons q l =>
            rw [hc] at hm
            simp [maxByFirst] at hm
    | some p =>
        right
        obtain ⟨hmem, hall⟩ := maxByFirst_spec hm
        have hg : get_current_sprint (some rows) = p.1 := by
          rw [get_current_sprint, if_neg h, hm]
        rw [hg]
        exact ⟨p.2, hmem, hall⟩

def c9AvTable : List Row := [ { sprint := Cell.str "BP: EFDDH Sprint 7", sprintNumber := 7 } ]

/-- Witness for C9 (amended): a one-sprint table for the available-sprints
part and the cleaned two-sprint table for the current-sprint part. -/
theorem sprint_selector_spec_witness :
    (c9AvTable ≠ [] ∧ get_available_sprints c9AvTable
        = (availablePairs c9AvTable).map (fun p => cellStr p.1)) ∧
    (prepare_data c9Raw ≠ [] ∧
      ((sprintCandidates (prepare_data c9Raw) = [] ∧
          get_current_sprint (some (prepare_data c9Raw)) = "No Sprint Data") ∨
        (∃ n : Int, (get_current_sprint (some (prepare_data c9Raw)), n)
            ∈ sprintCandidates (prepare_data c9Raw) ∧
          ∀ q ∈ sprintCandidates (prepare_data c9Raw), q.2 ≤ n))) :=
  ⟨⟨by decide, (sprint_selector_spec.1 c9AvTable).2.2 (by decide)⟩,
   ⟨by decide, sprint_selector_spec.2.1 (prepare_data c9Raw) (by decide)⟩⟩

/-- One row of the epic-progress table built by `show_epic_progress`
(src/components/visualizations.py). -/
structure EpicEntry where
  epic : String
  total_points : ℚ
  completed : ℚ
  progress : ℚ
deriving DecidableEq, Repr

/-- The group keys of `data.groupby("Epic Name")`: the distinct non-missing
epic names.  (pandas sorts group keys; no claim depends on the key order, so
first-occurrence order is used here.) -/
def epicKeys (data : List Row) : List String :=
  dedupKFAux [] (data.filterMap (fun r =>
    match r.epic with
    | Cell.str s => some s
    | _ => none))

/-- The rows of one epic. -/
def epicRows (data : List Row) (e : String) : List Row :=
  data.filter (fun r => r.epic == Cell.str e)

/-- `groupby("Epic Name")["Story Points"].sum()` for one epic. -/
def epicTotalPoints (data : List Row) (e : String) : ℚ :=
  ((epicRows data e).map (fun r => cellNum r.story_points)).sum

/-- `groupby("Epic Name")["Completed"].sum() * 1.0` for one epic: the
count (as a float) of rows whose status passes the four-keyword
visualization predicate. -/
def epicCompletedCount (data : List Row) (e : String) : ℚ :=
  ((epicRows data e).filter (fun r => is_completed_status_viz (cellStr r.status))).length

/-- The epic-progress computation of `show_epic_progress`: per epic, the
story-point total and the completed-row count; epics with non-positive
total points are dropped, and `Progress` is
`round(completed_count / total_points * 100, 1)`. -/
def epic_progress (data : List Row) : List EpicEntry :=
  ((epicKeys data).filter (fun e => decide (0 < epicTotalPoints data e))).map
    (fun e => ⟨e, epicTotalPoints data e, epicCompletedCount data e,
      pyRound1 (epicCompletedCount data e / epicTotalPoints data e * 100)⟩)

def c4Row : Row :=
  { issue_key := Cell.str "E1", epic := Cell.str "E", status := Cell.str "Done",
    story_points := Cell.num 5 }

def c4RowZ : Row :=
  { issue_key := Cell.str "F1", epic := Cell.str "F", status := Cell.str "Done",
    story_points := Cell.num 0 }

theorem epicTotalPoints_c4 : epicTotalPoints [c4Row] "E" = 5 := by
  have hm : (epicRows [c4Row] "E").map (fun r => cellNum r.story_points) = [5] := by
    decide
  rw [epicTotalPoints, hm]
  simp

theorem epicCompletedCount_c4 : epicCompletedCount [c4Row] "E" = 1 := by
  have hf : (epicRows [c4Row] "E").filter
      (fun r => is_completed_status_viz (cellStr r.status)) = [c4Row] := by decide
  rw [epicCompletedCount, hf]
  simp

theorem epic_progress_c4_eval : epic_progress [c4Row] = [⟨"E", 5, 1, 20⟩] := by
  have hk : epicKeys [c4Row] = ["E"] := by decide
  rw [epic_progress, hk]
  simp only [List.filter, epicTotalPoints_c4, epicCompletedCount_c4]
  norm_num [pyRound1, round_eq, epicTotalPoints_c4, epicCompletedCount_c4]

/-- C4, counterexample: for a single epic "E" with one completed 5-point
row, the code reports progress `round(1 / 5 * 100, 1) = 20` - the numerator
is the COUNT of completed rows, not their summed points - whereas the
claimed `completed_points / total_points * 100` equals 100.  And an epic
whose total points are 0 is dropped from the result instead of being
reported with percentage 0. -/
theorem epic_progress_counterexample :
    epic_progress [c4Row] = [⟨"E", 5, 1, 20⟩] ∧ (20 : ℚ) ≠ 5 / 5 * 100 ∧
    epic_progress [c4RowZ] = [] := by
  refine ⟨epic_progress_c4_eval, by norm_num, ?_⟩
  have hk : epicKeys [c4RowZ] = ["F"] := by decide
  have ht : epicTotalPoints [c4RowZ] "F" = 0 := by
    have hm : (epicRows [c4RowZ] "F").map (fun r => cellNum r.story_points) = [0] := by
      decide
    rw [epicTotalPoints, hm]
    simp
  rw [epic_progress, hk]
  simp [ht]

theorem mem_epicKeys {data : List Row} {e : String} :
    e ∈ epicKeys data ↔ ∃ r ∈ data, r.epic = Cell.str e := by
  have hmatch : ∀ c : Cell,
      (match c with | Cell.str s => some s | _ => none) = some e ↔ c = Cell.str e := by
    intro c
    cases c <;> simp
  rw [epicKeys, mem_dedupKFAux]
  simp only [List.mem_filterMap, hmatch, List.not_mem_nil, not_false_iff, and_true]

/-- C4 (amended): every entry of the epic-progress table belongs to an epic
that occurs (non-missing) in the data and has strictly positive total story
points; its `total_points` is the story-point sum over the epic's rows, its
`completed` figure is the COUNT of the epic's completed rows (four-keyword
visualization predicate), and its progress percentage is
`round(completed_count / total_points * 100, 1)`; conversely every occurring
epic with positive total points is represented.  (Zero-point epics are
dropped rather than reported with 0 - see the counterexample.) -/
theorem epic_progress_spec :
    ∀ data : List Row,
      (∀ entry ∈ epic_progress data,
        entry.total_points = epicTotalPoints data entry.epic ∧
        entry.completed = epicCompletedCount data entry.epic ∧
        entry.progress = pyRound1 (entry.completed / entry.total_points * 100) ∧
        0 < entry.total_points ∧
        (∃ r ∈ data, r.epic = Cell.str entry.epic)) ∧
      (∀ e : String, (∃ r ∈ data, r.epic = Cell.str e) → 0 < epicTotalPoints data e →
        ∃ entry ∈ epic_progress data, entry.epic = e) := by
  intro data
  constructor
  · intro entry hentry
    rw [epic_progress] at hentry
    obtain ⟨e, he, heq⟩ := List.mem_map.mp hentry
    obtain ⟨hek, hpos⟩ := List.mem_filter.mp he
    rw [← heq]
    refine ⟨rfl, rfl, rfl, ?_, ?_⟩
    · simpa using hpos
    · simpa using mem_epicKeys.mp hek
  · intro e hocc hpos
    refine ⟨⟨e, epicTotalPoints data e, epicCompletedCount data e,
      pyRound1 (epicCompletedCount data e / epicTotalPoints data e * 100)⟩, ?_, rfl⟩
    rw [epic_progress]
    exact List.mem_map.mpr ⟨e, List.mem_filter.mpr
      ⟨mem_epicKeys.mpr hocc, by simpa using hpos⟩, rfl⟩

/-- Witness for C4 (amended): the single-epic table. -/
theorem epic_progress_spec_witness :
    ((⟨"E", 5, 1, 20⟩ : EpicEntry) ∈ epic_progress [c4Row] ∧
      ((⟨"E", 5, 1, 20⟩ : EpicEntry).total_points
          = epicTotalPoints [c4Row] (⟨"E", 5, 1, 20⟩ : EpicEntry).epic ∧
        (⟨"E", 5, 1, 20⟩ : EpicEntry).completed
          = epicCompletedCount [c4Row] (⟨"E", 5, 1, 20⟩ : EpicEntry).epic ∧
        (⟨"E", 5, 1, 20⟩ : EpicEntry).progress
          = pyRound1 ((⟨"E", 5, 1, 20⟩ : EpicEntry).completed
              / (⟨"E", 5, 1, 20⟩ : EpicEntry).total_points * 100) ∧
        0 < (⟨"E", 5, 1, 20⟩ : EpicEntry).total_points ∧
        (∃ r ∈ [c4Row], r.epic = Cell.str (⟨"E", 5, 1, 20⟩ : EpicEntry).epic))) ∧
    ((∃ r ∈ [c4Row], r.epic = Cell.str "E") ∧ 0 < epicTotalPoints [c4Row] "E" ∧
      ∃ entry ∈ epic_progress [c4Row], entry.epic = "E") := by
  have hmem : (⟨"E", 5, 1, 20⟩ : EpicEntry) ∈ epic_progress [c4Row] := by
    rw [epic_progress_c4_eval]
    exact List.mem_singleton.mpr rfl
  have hocc : ∃ r ∈ [c4Row], r.epic = Cell.str "E" := by decide
  have hpos : 0 < epicTotalPoints [c4Row] "E" := by
    rw [epicTotalPoints_c4]
    norm_num
  exact ⟨⟨hmem, (epic_progress_spec [c4Row]).1 _ hmem⟩,
    ⟨hocc, hpos, (epic_progress_spec [c4Row]).2 "E" hocc hpos⟩⟩
